import Mathlib

/-!
Shallow embedding of `src/src/index.js` of react-dropzone (the `useDropzone`
hook and its event handlers), together with theorems checking the
natural-language specification against it.

DOM elements are modelled as natural numbers, the dropzone node as an
`Option Elem`, and the DOM `contains` relation as an abstract boolean
function.  The helpers `fileAccepted`, `fileMatchSize` and
`allFilesAccepted` live in `src/utils.js`, which is not among the sources;
`fileAccepted` is kept abstract (a parameter of the development) and the
other two are modelled from the spec, as noted on their doc comments.
-/

namespace Dropzone

/-- A dropped or dragged file; only the fields the embedded code inspects. -/
structure File where
  name : String
  size : Nat
deriving DecidableEq

/-- A DOM element, abstractly. -/
abbrev Elem := Nat

/-- The props of `useDropzone` that the embedded handlers read.  Optional
props are `Option`s (`none` models an absent / `null` prop); callbacks are
modelled by presence flags, since the handlers only test them for
truthiness before invoking them. -/
structure DropzoneProps where
  accept : Option String := none
  multiple : Option Bool := none
  maxSize : Option Nat := none
  minSize : Option Nat := none
  disabled : Bool := false
  preventDropOnDocument : Option Bool := none
  hasOnDrop : Bool := false
  hasOnDropAccepted : Bool := false
  hasOnDropRejected : Bool := false
  hasOnClick : Bool := false
  hasOnDragEnter : Bool := false
  hasOnDragLeave : Bool := false
deriving DecidableEq

/-- The React state created by `createInitialState` (index.js lines 19-25). -/
structure DropzoneState where
  draggedFiles : List File
  acceptedFiles : List File
  rejectedFiles : List File
  isDragActive : Bool
  isFocused : Bool
deriving DecidableEq

/-- The hidden file input element, as far as `open` touches it
(its `value` and whether it has been clicked). -/
structure InputState where
  value : String
  clicked : Bool
deriving DecidableEq

/-- The mutable controller of a `useDropzone` instance: the React state
plus the refs `dragTargetsRef`, `isFileDialogActiveRef` and `inputRef`. -/
structure Controller where
  state : DropzoneState
  dragTargets : List Elem
  isFileDialogActive : Bool
  input : Option InputState
deriving DecidableEq

/-- The initial state, from `createInitialState`. -/
def createInitialState : DropzoneState :=
  { draggedFiles := [], acceptedFiles := [], rejectedFiles := [],
    isDragActive := false, isFocused := false }

/-- A browser event, as far as the embedded handlers inspect it.
`hasFiles` models `isDragDataWithFiles(evt)`, `files` the resolved result
of `getDataTransferItems(evt)`, `propagationStopped` the value of
`isPropagationStopped(evt)` at the time the promise callback runs, and
`defaultPrevented` the value of `isDefaultPrevented(evt)` at the point
where the handler tests it. -/
structure DomEvent where
  target : Elem
  hasFiles : Bool
  files : List File
  propagationStopped : Bool
  defaultPrevented : Bool
deriving DecidableEq

/-- Modelled from the spec: `fileMatchSize` lives in `src/utils.js`, which
is not among the sources; the spec for `onDrop` says a file passes the size
check iff its size lies within `[minSize, maxSize]`, where a `none`
(`Infinity`) upper bound never rejects. -/
def fileMatchSize (file : File) (maxSize : Option Nat) (minSize : Nat) : Bool :=
  (match maxSize with
   | none => true
   | some m => decide (file.size ≤ m)) && decide (minSize ≤ file.size)

/-- Modelled from the spec: `allFilesAccepted` lives in `src/utils.js`,
which is not among the sources; the spec says it holds iff every dragged
file matches the accept prop (`fileAccepted`).  The predicate `fa` is the
abstract `fileAccepted`. -/
def allFilesAccepted (fa : File → Option String → Bool)
    (files : List File) (accept : Option String) : Bool :=
  files.all (fun f => fa f accept)

/-- The acceptance test of the `forEach` loop in `onDrop`
(index.js lines 176-183): `fileAccepted(file, accept) &&
fileMatchSize(file, maxSize == null ? Infinity : maxSize,
minSize == null ? 0 : minSize)`. -/
def dropAccepts (fa : File → Option String → Bool)
    (props : DropzoneProps) (file : File) : Bool :=
  fa file props.accept &&
    fileMatchSize file props.maxSize (props.minSize.getD 0)

/-- The `fileList.forEach` loop of `onDrop` (index.js lines 175-188):
each file is pushed onto `acceptedFiles` when `p` holds of it and onto
`rejectedFiles` otherwise. -/
def classifyLoop (p : File → Bool) (fileList : List File) :
    List File × List File :=
  fileList.foldl
    (fun acc file =>
      if p file then (acc.1 ++ [file], acc.2) else (acc.1, acc.2 ++ [file]))
    ([], [])

/-- The single-mode adjustment of `onDrop` (index.js lines 190-194):
`if (!multiple && acceptedFiles.length > 1)
   rejectedFiles.push(...acceptedFiles.splice(0))`. -/
def singleModeAdjust (multiple : Bool) (accepted rejected : List File) :
    List File × List File :=
  if !multiple && decide (accepted.length > 1) then
    ([], rejected ++ accepted)
  else
    (accepted, rejected)

/-- A user callback invocation recorded by a handler. -/
inductive CbCall where
  | cbOnDrop (accepted rejected : List File)
  | cbOnDropRejected (rejected : List File)
  | cbOnDropAccepted (accepted : List File)
  | cbOnDragEnter
  | cbOnDragLeave
  | cbOnClick
deriving DecidableEq

/-- The `onDrop` handler (index.js lines 139-211).  It always resets the
drag-target list, the file-dialog flag and the drag state; when the drag
data contains files and propagation was not stopped by the time the
promise resolves, it classifies the resolved file list, applies the
single-mode adjustment, stores the two lists in state and invokes the
`onDrop` / `onDropRejected` / `onDropAccepted` callbacks in that order,
subject to their presence and to the lists being non-empty. -/
def onDropHandler (fa : File → Option String → Bool) (props : DropzoneProps)
    (c : Controller) (evt : DomEvent) : Controller × List CbCall :=
  let multiple := props.multiple.getD true
  let c :=
    { c with
      dragTargets := [],
      isFileDialogActive := false,
      state := { c.state with isDragActive := false, draggedFiles := [] } }
  if evt.hasFiles then
    if evt.propagationStopped then (c, [])
    else
      let pair := classifyLoop (dropAccepts fa props) evt.files
      let pair := singleModeAdjust multiple pair.1 pair.2
      let acceptedFiles := pair.1
      let rejectedFiles := pair.2
      let c :=
        { c with
          state :=
            { c.state with
              acceptedFiles := acceptedFiles, rejectedFiles := rejectedFiles } }
      let calls :=
        (if props.hasOnDrop then [CbCall.cbOnDrop acceptedFiles rejectedFiles]
         else []) ++
        (if decide (rejectedFiles.length > 0) && props.hasOnDropRejected then
           [CbCall.cbOnDropRejected rejectedFiles]
         else []) ++
        (if decide (acceptedFiles.length > 0) && props.hasOnDropAccepted then
           [CbCall.cbOnDropAccepted acceptedFiles]
         else [])
      (c, calls)
  else (c, [])

/-- Whether `el` is contained in the dropzone node: `nodeRef.current != null
&& nodeRef.current.contains(el)`, with `contains` the abstract DOM
containment relation. -/
def nodeContains (node : Option Elem) (contains : Elem → Elem → Bool)
    (el : Elem) : Bool :=
  match node with
  | none => false
  | some n => contains n el

/-- The `onDragEnter` handler (index.js lines 68-98): it pushes the event
target onto the drag-target list when absent, and — when the drag data
contains files — resolves the dragged files and, unless propagation was
stopped by then, stores them and sets `isDragActive` to `true`; the user's
`onDragEnter` callback is invoked whenever the drag data contains files. -/
def onDragEnterHandler (props : DropzoneProps) (c : Controller)
    (evt : DomEvent) : Controller × List CbCall :=
  let c :=
    if c.dragTargets.contains evt.target then c
    else { c with dragTargets := c.dragTargets ++ [evt.target] }
  if evt.hasFiles then
    let c :=
      if evt.propagationStopped then c
      else
        { c with
          state :=
            { c.state with draggedFiles := evt.files, isDragActive := true } }
    (c, if props.hasOnDragEnter then [CbCall.cbOnDragEnter] else [])
  else (c, [])

/-- The filter applied to the drag-target list by `onDragLeave`
(index.js lines 120-122): keep `el` iff
`el !== evt.target && nodeRef.current != null && nodeRef.current.contains(el)`. -/
def dragLeaveFilter (node : Option Elem) (contains : Elem → Elem → Bool)
    (target : Elem) (targets : List Elem) : List Elem :=
  targets.filter (fun el => decide (el ≠ target) && nodeContains node contains el)

/-- The `onDragLeave` handler (index.js lines 115-137): it filters the
drag-target list; when counted targets remain it returns at once,
otherwise it clears `isDragActive` and `draggedFiles` and invokes the
user's `onDragLeave` callback when present and the drag data contains
files. -/
def onDragLeaveHandler (props : DropzoneProps) (node : Option Elem)
    (contains : Elem → Elem → Bool) (c : Controller) (evt : DomEvent) :
    Controller × List CbCall :=
  let c :=
    { c with dragTargets := dragLeaveFilter node contains evt.target c.dragTargets }
  if decide (c.dragTargets.length > 0) then (c, [])
  else
    let c :=
      { c with
        state := { c.state with isDragActive := false, draggedFiles := [] } }
    (c, if props.hasOnDragLeave && evt.hasFiles then [CbCall.cbOnDragLeave] else [])

/-- The document-level drop handler `onDocumentDrop` (index.js lines
52-59): when the dropzone node exists and contains the event target it
returns at once; otherwise it prevents the browser default and resets the
drag-target list.  The boolean in the result records whether
`evt.preventDefault()` was called. -/
def onDocumentDropHandler (node : Option Elem)
    (contains : Elem → Elem → Bool) (c : Controller) (evt : DomEvent) :
    Controller × Bool :=
  if nodeContains node contains evt.target then (c, false)
  else ({ c with dragTargets := [] }, true)

/-- Whether the `useEffect` of `useDropzone` (index.js lines 303-318)
installs `onDocumentDrop` on the document: it does iff
`preventDropOnDocument` (default `true`) holds. -/
def documentDropHandlerInstalled (props : DropzoneProps) : Bool :=
  props.preventDropOnDocument.getD true

/-- The `open` callback (index.js lines 38-47): it marks the file dialog
active and, when the input ref is non-null, clears the input's value and
clicks it.  (Named `openDialog` because `open` is reserved in Lean.) -/
def openDialog (c : Controller) : Controller :=
  { c with
    isFileDialogActive := true,
    input := c.input.map (fun _ => { value := "", clicked := true }) }

/-- An action taken by the `onClick` handler, in order. -/
inductive ClickAction where
  | userOnClick
  | stopPropagation
  | openSync
  | openDeferredZero
deriving DecidableEq

/-- The `onClick` handler (index.js lines 213-235): it first invokes the
user's `onClick` prop when given; then, iff the event's default was not
prevented, it stops propagation and opens the file dialog — via
`setTimeout(open, 0)` on IE/Edge, synchronously otherwise.
`evt.defaultPrevented` models `isDefaultPrevented(evt)` after the user's
`onClick` has run.  The result pairs the controller after all actions
(including a deferred `open`) with the ordered list of actions taken. -/
def onClickHandler (props : DropzoneProps) (ieOrEdge : Bool)
    (c : Controller) (evt : DomEvent) : Controller × List ClickAction :=
  let userActs := if props.hasOnClick then [ClickAction.userOnClick] else []
  if evt.defaultPrevented then (c, userActs)
  else
    (openDialog c,
     userActs ++
       [ClickAction.stopPropagation,
        if ieOrEdge then ClickAction.openDeferredZero else ClickAction.openSync])

/-- The derived status snapshot returned by `useDropzone`
(index.js lines 395-412). -/
structure Snapshot where
  isDragActive : Bool
  isDragAccept : Bool
  isDragReject : Bool
  draggedFiles : List File
  acceptedFiles : List File
  rejectedFiles : List File
  isFocused : Bool
deriving DecidableEq

/-- The computation of the snapshot from props and state
(index.js lines 395-412), with `fa` the abstract `fileAccepted`. -/
def deriveSnapshot (fa : File → Option String → Bool)
    (props : DropzoneProps) (s : DropzoneState) : Snapshot :=
  let multiple := props.multiple.getD true
  let filesCount := s.draggedFiles.length
  let isMultipleAllowed := multiple || decide (filesCount ≤ 1)
  let isDragAccept :=
    decide (filesCount > 0) && allFilesAccepted fa s.draggedFiles props.accept
  let isDragReject :=
    decide (filesCount > 0) && (!isDragAccept || !isMultipleAllowed)
  { isDragActive := s.isDragActive,
    isDragAccept := isDragAccept,
    isDragReject := isDragReject,
    draggedFiles := s.draggedFiles,
    acceptedFiles := s.acceptedFiles,
    rejectedFiles := s.rejectedFiles,
    isFocused := s.isFocused && !props.disabled }

/-- The `composeHandler` helper (index.js lines 320-328): it replaces the
given handler by `null` when the `disabled` prop holds. -/
def composeHandler {α : Type} (disabled : Bool) (handler : α) : Option α :=
  if disabled then none else some handler

/-- The nine handlers of the dropzone instance, abstractly (`α` stands for
the type of event-handler functions). -/
structure InstanceHandlers (α : Type) where
  onKeyDown : α
  onFocus : α
  onBlur : α
  onClick : α
  onDragStart : α
  onDragEnter : α
  onDragOver : α
  onDragLeave : α
  onDrop : α

/-- The handler overrides a caller may pass to `getRootProps`. -/
structure RootPropsArg (α : Type) where
  onKeyDown : Option α := none
  onFocus : Option α := none
  onBlur : Option α := none
  onClick : Option α := none
  onDragStart : Option α := none
  onDragEnter : Option α := none
  onDragOver : Option α := none
  onDragLeave : Option α := none
  onDrop : Option α := none

/-- The handler part of the object returned by `getRootProps`, plus
`tabIndex`; a `none` field models a `null` handler. -/
structure RootProps (α : Type) where
  onKeyDown : Option α
  onFocus : Option α
  onBlur : Option α
  onClick : Option α
  onDragStart : Option α
  onDragOver : Option α
  onDragEnter : Option α
  onDragLeave : Option α
  onDrop : Option α
  tabIndex : Int

/-- One field of `getRootProps`:
`composeHandler(user ? composeEventHandlers(user, inst) : inst)`, with
`compose` the abstract `composeEventHandlers`. -/
def rootField {α : Type} (disabled : Bool) (compose : α → α → α)
    (user : Option α) (instH : α) : Option α :=
  composeHandler disabled
    (match user with
     | some u => compose u instH
     | none => instH)

/-- The `getRootProps` prop getter (index.js lines 330-368), restricted to
its handler fields and `tabIndex` (the ref assignment and the rest-spread
carry no dropzone state). -/
def getRootProps {α : Type} (props : DropzoneProps) (compose : α → α → α)
    (inst : InstanceHandlers α) (arg : RootPropsArg α) : RootProps α :=
  { onKeyDown := rootField props.disabled compose arg.onKeyDown inst.onKeyDown,
    onFocus := rootField props.disabled compose arg.onFocus inst.onFocus,
    onBlur := rootField props.disabled compose arg.onBlur inst.onBlur,
    onClick := rootField props.disabled compose arg.onClick inst.onClick,
    onDragStart := rootField props.disabled compose arg.onDragStart inst.onDragStart,
    onDragOver := rootField props.disabled compose arg.onDragOver inst.onDragOver,
    onDragEnter := rootField props.disabled compose arg.onDragEnter inst.onDragEnter,
    onDragLeave := rootField props.disabled compose arg.onDragLeave inst.onDragLeave,
    onDrop := rootField props.disabled compose arg.onDrop inst.onDrop,
    tabIndex := if props.disabled then -1 else 0 }

/-- An event affecting the drag-target list, for the reachability
invariant: the four operations that touch `dragTargetsRef.current`. -/
inductive DragEvent where
  | dragEnter (target : Elem)
  | dragLeave (target : Elem)
  | drop
  | documentDrop (target : Elem)

/-- The effect of one event on the drag-target list, read off the four
handlers: `onDragEnter` pushes the target when absent, `onDragLeave`
filters, `onDrop` resets, and `onDocumentDrop` resets unless the target is
inside the node. -/
def dragTargetsStep (node : Option Elem) (contains : Elem → Elem → Bool)
    (l : List Elem) : DragEvent → List Elem
  | DragEvent.dragEnter t => if l.contains t then l else l ++ [t]
  | DragEvent.dragLeave t => dragLeaveFilter node contains t l
  | DragEvent.drop => []
  | DragEvent.documentDrop t =>
      if nodeContains node contains t then l else []

/-- The drag-target list after a sequence of events starting from the
initial (empty) list. -/
def dragTargetsRun (node : Option Elem) (contains : Elem → Elem → Bool)
    (events : List DragEvent) : List Elem :=
  events.foldl (dragTargetsStep node contains) []

/-- The `acceptedFiles` stored in state by a run of the `onDrop` handler. -/
def dropAccepted (fa : File → Option String → Bool) (props : DropzoneProps)
    (c : Controller) (evt : DomEvent) : List File :=
  (onDropHandler fa props c evt).fst.state.acceptedFiles

/-- The `rejectedFiles` stored in state by a run of the `onDrop` handler. -/
def dropRejected (fa : File → Option String → Bool) (props : DropzoneProps)
    (c : Controller) (evt : DomEvent) : List File :=
  (onDropHandler fa props c evt).fst.state.rejectedFiles

/-- The user callbacks invoked, in order, by a run of the `onDrop`
handler. -/
def dropCalls (fa : File → Option String → Bool) (props : DropzoneProps)
    (c : Controller) (evt : DomEvent) : List CbCall :=
  (onDropHandler fa props c evt).snd

/-! ### Sample concrete values, used to instantiate the theorems -/

/-- A freshly mounted controller. -/
def sampleController : Controller :=
  { state := createInitialState, dragTargets := [],
    isFileDialogActive := false, input := none }

/-- A controller with one recorded drag target and an input element. -/
def sampleController2 : Controller :=
  { state := createInitialState, dragTargets := [5],
    isFileDialogActive := false,
    input := some { value := "x", clicked := false } }

/-- An accept predicate accepting every file. -/
def acceptAll : File → Option String → Bool := fun _ _ => true

/-- A small file. -/
def fileA : File := { name := "a", size := 1 }

/-- Another small file. -/
def fileB : File := { name := "b", size := 2 }

/-- A drag/drop event carrying the given resolved files, with propagation
not stopped and default not prevented. -/
def sampleEvent (files : List File) : DomEvent :=
  { target := 0, hasFiles := true, files := files,
    propagationStopped := false, defaultPrevented := false }

/-- Props with `multiple := false`, everything else defaulted. -/
def samplePropsSingle : DropzoneProps := { multiple := some false }

/-- Props with the three drop callbacks provided. -/
def samplePropsCallbacks : DropzoneProps :=
  { hasOnDrop := true, hasOnDropAccepted := true, hasOnDropRejected := true }

/-- Props with only an `onClick` callback provided. -/
def samplePropsClick : DropzoneProps := { hasOnClick := true }

/-- Props with `disabled := true`, everything else defaulted. -/
def samplePropsDisabled : DropzoneProps := { disabled := true }

/-- The state of an active drag holding two files. -/
def sampleDragState : DropzoneState :=
  { draggedFiles := [fileA, fileB], acceptedFiles := [], rejectedFiles := [],
    isDragActive := true, isFocused := false }

/-- A state whose internal focus flag is set. -/
def sampleFocusState : DropzoneState :=
  { draggedFiles := [], acceptedFiles := [], rejectedFiles := [],
    isDragActive := false, isFocused := true }

/-- Concrete instance handlers over `Nat`, pairwise distinct. -/
def sampleInstanceHandlers : InstanceHandlers Nat :=
  { onKeyDown := 0, onFocus := 1, onBlur := 2, onClick := 3, onDragStart := 4,
    onDragEnter := 5, onDragOver := 6, onDragLeave := 7, onDrop := 8 }

/-! ### Helper lemmas -/

theorem classifyLoop_go (p : File → Bool) (l : List File) (a r : List File) :
    l.foldl
      (fun acc file =>
        if p file then (acc.1 ++ [file], acc.2) else (acc.1, acc.2 ++ [file]))
      (a, r) =
      (a ++ l.filter p, r ++ l.filter (fun f => !(p f))) := by
  induction l generalizing a r with
  | nil => simp
  | cons f t ih =>
      by_cases h : p f
      · simp [h, ih]
      · simp [h, ih]

/-- The `forEach` classification loop computes the two filters of the input
list. -/
theorem classifyLoop_eq (p : File → Bool) (l : List File) :
    classifyLoop p l = (l.filter p, l.filter (fun f => !(p f))) := by
  simpa using classifyLoop_go p l [] []

theorem dragTargetsStep_nodup (node : Option Elem)
    (contains : Elem → Elem → Bool) (l : List Elem) (e : DragEvent)
    (h : l.Nodup) : (dragTargetsStep node contains l e).Nodup := by
  cases e with
  | dragEnter t =>
      by_cases ht : t ∈ l
      · simpa [dragTargetsStep, ht] using h
      · simp [dragTargetsStep, ht, List.nodup_append, h]
  | dragLeave t => exact h.filter _
  | drop => simp [dragTargetsStep]
  | documentDrop t =>
      by_cases ht : nodeContains node contains t
      · simpa [dragTargetsStep, ht] using h
      · simp [dragTargetsStep, ht]

/-! ### Claims -/

/-- C4: the drag-target list never contains duplicate elements: starting
from the empty list, any sequence of `onDragEnter` pushes (guarded by an
`indexOf` check), `onDragLeave` filters, and `onDrop` / `onDocumentDrop`
resets leaves the list without duplicates. -/
theorem dragTargets_nodup (node : Option Elem)
    (contains : Elem → Elem → Bool) (events : List DragEvent) :
    (dragTargetsRun node contains events).Nodup := by
  suffices h : ∀ l : List Elem, l.Nodup →
      (events.foldl (dragTargetsStep node contains) l).Nodup by
    exact h [] List.nodup_nil
  induction events with
  | nil => intro l h; simpa using h
  | cons e t ih =>
      intro l h
      exact ih _ (dragTargetsStep_nodup node contains l e h)

/-- C6: on a drag-enter event whose drag data contains files and whose
propagation has not been stopped, `isDragActive` becomes `true` and the
resolved files are stored, regardless of the content of the resolved
file list — in particular also when it is empty. -/
theorem onDragEnter_activates (props : DropzoneProps) (c : Controller)
    (evt : DomEvent) (hf : evt.hasFiles = true)
    (hp : evt.propagationStopped = false) :
    (onDragEnterHandler props c evt).fst.state.isDragActive = true ∧
    (onDragEnterHandler props c evt).fst.state.draggedFiles = evt.files := by
  by_cases ht : c.dragTargets.contains evt.target <;>
    simp [onDragEnterHandler, hf, hp, ht]

/-- C6 witness: with an empty resolved file list (the Safari case) the
drag still becomes active. -/
theorem onDragEnter_activates_witness :
    (onDragEnterHandler { } sampleController
        (sampleEvent [])).fst.state.isDragActive = true :=
  (onDragEnter_activates { } sampleController (sampleEvent []) rfl rfl).1

/-- C7: the document-level drop handler resets the drag-target list and
prevents the browser default exactly when the drop target is outside the
dropzone node (in particular when the node ref is null); when the target
is inside the node it leaves both the controller and the event untouched.
It is installed iff `preventDropOnDocument` holds, whose default is
`true`. -/
theorem onDocumentDrop_spec (node : Option Elem)
    (contains : Elem → Elem → Bool) (c : Controller) (evt : DomEvent)
    (props : DropzoneProps) (b : Bool) :
    (nodeContains node contains evt.target = false →
      onDocumentDropHandler node contains c evt =
        ({ c with dragTargets := [] }, true)) ∧
    (nodeContains node contains evt.target = true →
      onDocumentDropHandler node contains c evt = (c, false)) ∧
    (node = none →
      onDocumentDropHandler node contains c evt =
        ({ c with dragTargets := [] }, true)) ∧
    (props.preventDropOnDocument = none →
      documentDropHandlerInstalled props = true) ∧
    (props.preventDropOnDocument = some b →
      documentDropHandlerInstalled props = b) := by
  refine ⟨fun h => ?_, fun h => ?_, fun h => ?_, fun h => ?_, fun h => ?_⟩
  · simp [onDocumentDropHandler, h]
  · simp [onDocumentDropHandler, h]
  · simp [onDocumentDropHandler, nodeContains, h]
  · simp [documentDropHandlerInstalled, h]
  · simp [documentDropHandlerInstalled, h]

/-- C7 witness: with no node, a document drop resets a non-empty
drag-target list and prevents the default, and the default-`none`
`preventDropOnDocument` prop installs the handler. -/
theorem onDocumentDrop_spec_witness :
    onDocumentDropHandler none (fun _ _ => true) sampleController2
        (sampleEvent []) =
      ({ sampleController2 with dragTargets := [] }, true) ∧
    documentDropHandlerInstalled { } = true :=
  ⟨(onDocumentDrop_spec none (fun _ _ => true) sampleController2
      (sampleEvent []) { } true).1 (by decide),
   (onDocumentDrop_spec none (fun _ _ => true) sampleController2
      (sampleEvent []) { } true).2.2.2.1 rfl⟩

theorem onDrop_partition_eq (fa : File → Option String → Bool)
    (props : DropzoneProps) (c : Controller) (evt : DomEvent)
    (hf : evt.hasFiles = true) (hp : evt.propagationStopped = false)
    (hm : props.multiple.getD true = true ∨
      (evt.files.filter (dropAccepts fa props)).length ≤ 1) :
    dropAccepted fa props c evt = evt.files.filter (dropAccepts fa props) ∧
    dropRejected fa props c evt =
      evt.files.filter (fun f => !(dropAccepts fa props f)) := by
  have hcond : (!(props.multiple.getD true) &&
      decide ((evt.files.filter (dropAccepts fa props)).length > 1)) = false := by
    rcases hm with hm | hm
    · simp [hm]
    · have : ¬ ((evt.files.filter (dropAccepts fa props)).length > 1) := by omega
      simp [this]
  constructor <;>
    simp [dropAccepted, dropRejected, onDropHandler, hf, hp, classifyLoop_eq,
      singleModeAdjust, hcond]

/-- C1 counterexample: with `multiple := false` and two dropped files that
both pass the acceptance test, `fileA` matches the accept and size checks
yet ends in `rejectedFiles`, not `acceptedFiles`, so the claimed
"accepted iff it matches" equivalence fails for the onDrop handler as a
whole. -/
theorem onDrop_partition_claim_counterexample :
    dropAccepts acceptAll samplePropsSingle fileA = true ∧
    fileA ∈ (sampleEvent [fileA, fileB]).files ∧
    fileA ∉ dropAccepted acceptAll samplePropsSingle sampleController
      (sampleEvent [fileA, fileB]) ∧
    fileA ∈ dropRejected acceptAll samplePropsSingle sampleController
      (sampleEvent [fileA, fileB]) := by
  decide

/-- C1 (amended): for every dropped file list processed by the onDrop
handler, provided `multiple` (default `true`) is `true` or at most one
file passes the acceptance test, each file is placed in exactly one of
`acceptedFiles` or `rejectedFiles`; it is accepted iff it matches the
accept prop (`fileAccepted`) and its size lies within `[minSize, maxSize]`
(`maxSize` defaulting to Infinity when null, `minSize` to 0 when null);
relative order is preserved within each list, and the two lists together
are a permutation of the input.  (Otherwise the single-mode adjustment of
C2 empties `acceptedFiles` first.) -/
theorem onDrop_partition_spec (fa : File → Option String → Bool)
    (props : DropzoneProps) (c : Controller) (evt : DomEvent)
    (hf : evt.hasFiles = true) (hp : evt.propagationStopped = false)
    (hm : props.multiple.getD true = true ∨
      (evt.files.filter (dropAccepts fa props)).length ≤ 1) :
    dropAccepted fa props c evt = evt.files.filter (dropAccepts fa props) ∧
    dropRejected fa props c evt =
      evt.files.filter (fun f => !(dropAccepts fa props f)) ∧
    (dropAccepted fa props c evt).Sublist evt.files ∧
    (dropRejected fa props c evt).Sublist evt.files ∧
    (dropAccepted fa props c evt ++ dropRejected fa props c evt).Perm
      evt.files ∧
    ∀ f ∈ evt.files,
      (f ∈ dropAccepted fa props c evt ↔ dropAccepts fa props f = true) ∧
      (f ∈ dropRejected fa props c evt ↔ dropAccepts fa props f = false) ∧
      ¬(f ∈ dropAccepted fa props c evt ∧ f ∈ dropRejected fa props c evt) := by
  obtain ⟨ha, hr⟩ := onDrop_partition_eq fa props c evt hf hp hm
  refine ⟨ha, hr, ?_, ?_, ?_, ?_⟩
  · rw [ha]; exact List.filter_sublist _
  · rw [hr]; exact List.filter_sublist _
  · rw [ha, hr]; exact List.filter_append_perm _ _
  · intro f hfmem
    have h1 : f ∈ dropAccepted fa props c evt ↔ dropAccepts fa props f = true := by
      rw [ha]; simp [List.mem_filter, hfmem]
    have h2 : f ∈ dropRejected fa props c evt ↔ dropAccepts fa props f = false := by
      rw [hr]; simp [List.mem_filter, hfmem]
    refine ⟨h1, h2, fun hb => ?_⟩
    have := h1.mp hb.1
    have := h2.mp hb.2
    simp_all

/-- C1 witness: with default props and two files accepted by the
predicate, `acceptedFiles` is the whole input and `rejectedFiles` is
empty. -/
theorem onDrop_partition_spec_witness :
    dropAccepted acceptAll { } sampleController (sampleEvent [fileA, fileB]) =
      [fileA, fileB] ∧
    dropRejected acceptAll { } sampleController (sampleEvent [fileA, fileB]) =
      [] := by
  obtain ⟨ha, hr, -⟩ := onDrop_partition_spec acceptAll { } sampleController
    (sampleEvent [fileA, fileB]) rfl rfl (Or.inl rfl)
  exact ⟨ha.trans (by decide), hr.trans (by decide)⟩

/-- C2: in the onDrop handler, when `multiple` is `false` (its default is
`true`) and more than one file was accepted, every accepted file is moved,
in order, to the end of `rejectedFiles` and `acceptedFiles` becomes empty;
when at most one file was accepted, the single-mode check changes
nothing and the state holds the plain partition. -/
theorem onDrop_singleMode (fa : File → Option String → Bool)
    (props : DropzoneProps) (c : Controller) (evt : DomEvent)
    (hf : evt.hasFiles = true) (hp : evt.propagationStopped = false) :
    (props.multiple.getD true = false →
      1 < (evt.files.filter (dropAccepts fa props)).length →
      dropAccepted fa props c evt = [] ∧
      dropRejected fa props c evt =
        evt.files.filter (fun f => !(dropAccepts fa props f)) ++
          evt.files.filter (dropAccepts fa props)) ∧
    ((evt.files.filter (dropAccepts fa props)).length ≤ 1 →
      dropAccepted fa props c evt = evt.files.filter (dropAccepts fa props) ∧
      dropRejected fa props c evt =
        evt.files.filter (fun f => !(dropAccepts fa props f))) := by
  constructor
  · intro hmul hlen
    have hcond : (!(props.multiple.getD true) &&
        decide ((evt.files.filter (dropAccepts fa props)).length > 1)) = true := by
      simp [hmul, hlen]
    constructor <;>
      simp [dropAccepted, dropRejected, onDropHandler, hf, hp, classifyLoop_eq,
        singleModeAdjust, hcond]
  · intro hlen
    exact onDrop_partition_eq fa props c evt hf hp (Or.inr hlen)

/-- C2 witness: with `multiple := false` and two accepted files, both end
at the end of `rejectedFiles` and `acceptedFiles` is empty. -/
theorem onDrop_singleMode_witness :
    dropAccepted acceptAll samplePropsSingle sampleController
      (sampleEvent [fileA, fileB]) = [] ∧
    dropRejected acceptAll samplePropsSingle sampleController
      (sampleEvent [fileA, fileB]) = [fileA, fileB] := by
  have h := (onDrop_singleMode acceptAll samplePropsSingle sampleController
    (sampleEvent [fileA, fileB]) rfl rfl).1 rfl (by decide)
  exact ⟨h.1, h.2.trans (by decide)⟩

/-- C3: the onDragLeave handler removes the event target from the
drag-target list (along with any recorded target no longer contained in
the dropzone node); it clears the drag state (sets `isDragActive` to
`false` and `draggedFiles` to `[]`) when the filtered list is empty, and
when counted targets remain it leaves the React state unchanged and does
not invoke the user's `onDragLeave` callback. -/
theorem onDragLeave_spec (props : DropzoneProps) (node : Option Elem)
    (contains : Elem → Elem → Bool) (c : Controller) (evt : DomEvent) :
    (onDragLeaveHandler props node contains c evt).fst.dragTargets =
      dragLeaveFilter node contains evt.target c.dragTargets ∧
    evt.target ∉ (onDragLeaveHandler props node contains c evt).fst.dragTargets ∧
    (∀ el ∈ (onDragLeaveHandler props node contains c evt).fst.dragTargets,
      nodeContains node contains el = true) ∧
    (dragLeaveFilter node contains evt.target c.dragTargets ≠ [] →
      (onDragLeaveHandler props node contains c evt).fst.state = c.state ∧
      (onDragLeaveHandler props node contains c evt).snd = []) ∧
    (dragLeaveFilter node contains evt.target c.dragTargets = [] →
      (onDragLeaveHandler props node contains c evt).fst.state.isDragActive = false ∧
      (onDragLeaveHandler props node contains c evt).fst.state.draggedFiles = [] ∧
      (onDragLeaveHandler props node contains c evt).snd =
        (if props.hasOnDragLeave && evt.hasFiles then [CbCall.cbOnDragLeave]
         else [])) := by
  have htar : evt.target ∉ dragLeaveFilter node contains evt.target c.dragTargets := by
    simp [dragLeaveFilter, List.mem_filter]
  have hcont : ∀ el ∈ dragLeaveFilter node contains evt.target c.dragTargets,
      nodeContains node contains el = true := by
    intro el hel
    rw [dragLeaveFilter, List.mem_filter] at hel
    exact (Bool.and_eq_true _ _ |>.mp hel.2).2
  by_cases hF : dragLeaveFilter node contains evt.target c.dragTargets = []
  · refine ⟨?_, ?_, ?_, fun h => absurd hF h, fun _ => ?_⟩ <;>
      simp [onDragLeaveHandler, hF]
  · have hlen : 0 < (dragLeaveFilter node contains evt.target c.dragTargets).length :=
      List.length_pos.mpr hF
    refine ⟨?_, ?_, ?_, fun _ => ?_, fun h => absurd h hF⟩
    · simp [onDragLeaveHandler, hlen]
    · simp [onDragLeaveHandler, hlen, htar]
    · simpa [onDragLeaveHandler, hlen] using hcont
    · simp [onDragLeaveHandler, hlen]

/-- C3 witness: a drag-leave on the only recorded target clears the drag
state, and on a controller whose other target is still inside the node it
leaves the state untouched. -/
theorem onDragLeave_spec_witness :
    (onDragLeaveHandler { } none (fun _ _ => true) sampleController2
      (sampleEvent [])).fst.state.isDragActive = false ∧
    (onDragLeaveHandler { } (some 9) (fun _ _ => true) sampleController2
      (sampleEvent [])).fst.state = sampleController2.state := by
  constructor
  · exact ((onDragLeave_spec { } none (fun _ _ => true) sampleController2
      (sampleEvent [])).2.2.2.2 (by decide)).1
  · exact ((onDragLeave_spec { } (some 9) (fun _ _ => true) sampleController2
      (sampleEvent [])).2.2.2.1 (by decide)).1

/-- C5: in the derived snapshot, `isDragAccept` holds iff `draggedFiles`
is non-empty and every dragged file matches the accept prop, and
`isDragReject` holds iff `draggedFiles` is non-empty and either not all
dragged files are accepted or `multiple` is `false` and more than one file
is dragged; consequently with `multiple` `false` and several all-accepted
dragged files, `isDragAccept` and `isDragReject` are both `true`. -/
theorem deriveSnapshot_dragFlags (fa : File → Option String → Bool)
    (props : DropzoneProps) (s : DropzoneState) :
    ((deriveSnapshot fa props s).isDragAccept = true ↔
      s.draggedFiles ≠ [] ∧ ∀ f ∈ s.draggedFiles, fa f props.accept = true) ∧
    ((deriveSnapshot fa props s).isDragReject = true ↔
      s.draggedFiles ≠ [] ∧
        ((¬ ∀ f ∈ s.draggedFiles, fa f props.accept = true) ∨
          (props.multiple.getD true = false ∧ 1 < s.draggedFiles.length))) ∧
    (props.multiple.getD true = false → 1 < s.draggedFiles.length →
      (∀ f ∈ s.draggedFiles, fa f props.accept = true) →
      (deriveSnapshot fa props s).isDragAccept = true ∧
      (deriveSnapshot fa props s).isDragReject = true) := by
  have hmain :
      ((deriveSnapshot fa props s).isDragAccept = true ↔
        s.draggedFiles ≠ [] ∧ ∀ f ∈ s.draggedFiles, fa f props.accept = true) ∧
      ((deriveSnapshot fa props s).isDragReject = true ↔
        s.draggedFiles ≠ [] ∧
          ((¬ ∀ f ∈ s.draggedFiles, fa f props.accept = true) ∨
            (props.multiple.getD true = false ∧ 1 < s.draggedFiles.length))) := by
    constructor
    · simp [deriveSnapshot, allFilesAccepted, List.all_eq_true, List.length_pos]
    · simp only [deriveSnapshot, allFilesAccepted]
      cases hm : props.multiple.getD true with
      | false =>
          simp [List.all_eq_true, List.length_pos, Decidable.not_forall]
          intro h
          constructor
          · rintro ((ha | hb) | hc)
            · exact absurd ha h
            · exact Or.inl hb
            · exact Or.inr hc
          · rintro (hb | hc)
            · exact Or.inl (Or.inr hb)
            · exact Or.inr hc
      | true =>
          simp [List.all_eq_true, List.length_pos, Decidable.not_forall]
          intro h h2
          exact absurd h2 h
  refine ⟨hmain.1, hmain.2, fun h1 h2 h3 => ⟨?_, ?_⟩⟩
  · exact hmain.1.mpr ⟨by intro h; simp [h] at h2, h3⟩
  · exact hmain.2.mpr ⟨by intro h; simp [h] at h2, Or.inr ⟨h1, h2⟩⟩

/-- C5 witness: with `multiple := false` and two dragged files that are
both accepted, `isDragAccept` and `isDragReject` are both `true`. -/
theorem deriveSnapshot_dragFlags_witness :
    (deriveSnapshot acceptAll samplePropsSingle sampleDragState).isDragAccept = true ∧
    (deriveSnapshot acceptAll samplePropsSingle sampleDragState).isDragReject = true :=
  (deriveSnapshot_dragFlags acceptAll samplePropsSingle sampleDragState).2.2
    rfl (by decide) (by decide)

/-- C8: the onClick handler first invokes the user's `onClick` prop when
given; iff the event's default was not prevented it then opens the file
dialog (marking the dialog active, clearing and clicking the input) —
deferred via `setTimeout(open, 0)` on IE/Edge, synchronously otherwise —
and when the default was prevented no open happens and the controller is
unchanged. -/
theorem onClick_spec (props : DropzoneProps) (ieOrEdge : Bool)
    (c : Controller) (evt : DomEvent) :
    (props.hasOnClick = true →
      ((onClickHandler props ieOrEdge c evt).snd).head? =
        some ClickAction.userOnClick) ∧
    (props.hasOnClick = false →
      ClickAction.userOnClick ∉ (onClickHandler props ieOrEdge c evt).snd) ∧
    (evt.defaultPrevented = false →
      (onClickHandler props ieOrEdge c evt).fst = openDialog c ∧
      (onClickHandler props ieOrEdge c evt).fst.isFileDialogActive = true ∧
      (∀ i : InputState, c.input = some i →
        (onClickHandler props ieOrEdge c evt).fst.input =
          some { value := "", clicked := true }) ∧
      (ieOrEdge = true →
        ClickAction.openDeferredZero ∈ (onClickHandler props ieOrEdge c evt).snd ∧
        ClickAction.openSync ∉ (onClickHandler props ieOrEdge c evt).snd) ∧
      (ieOrEdge = false →
        ClickAction.openSync ∈ (onClickHandler props ieOrEdge c evt).snd ∧
        ClickAction.openDeferredZero ∉ (onClickHandler props ieOrEdge c evt).snd)) ∧
    (evt.defaultPrevented = true →
      (onClickHandler props ieOrEdge c evt).fst = c ∧
      ClickAction.openSync ∉ (onClickHandler props ieOrEdge c evt).snd ∧
      ClickAction.openDeferredZero ∉ (onClickHandler props ieOrEdge c evt).snd) := by
  cases hc : props.hasOnClick <;> cases hd : evt.defaultPrevented <;>
    cases hie : ieOrEdge <;>
    simp [onClickHandler, openDialog, hc, hd, hie] <;>
    exact fun i hi => ⟨i, hi⟩

/-- C8 witness: not on IE/Edge, with default not prevented, the dialog is
opened synchronously and the input is clicked with a cleared value. -/
theorem onClick_spec_witness :
    (onClickHandler samplePropsClick false sampleController2
      (sampleEvent [])).fst = openDialog sampleController2 ∧
    ClickAction.openSync ∈
      (onClickHandler samplePropsClick false sampleController2
        (sampleEvent [])).snd ∧
    (onClickHandler samplePropsClick false sampleController2
      (sampleEvent [])).fst.input = some { value := "", clicked := true } := by
  have h := (onClick_spec samplePropsClick false sampleController2
    (sampleEvent [])).2.2.1 rfl
  exact ⟨h.1, (h.2.2.2.2 rfl).1,
    h.2.2.1 { value := "x", clicked := false } rfl⟩

theorem mem_ite_singleton {α : Type} (a x : α) (b : Bool) :
    a ∈ (if b then [x] else []) ↔ b = true ∧ a = x := by
  cases b <;> simp

theorem segments_sublist {α : Type} (x y z : α) (b1 b2 b3 : Bool) :
    ((if b1 then [x] else []) ++ (if b2 then [y] else []) ++
      (if b3 then [z] else [])).Sublist [x, y, z] := by
  cases b1 <;> cases b2 <;> cases b3 <;> simp

/-- C9: whenever the onDrop handler processes a dropped file list (drag
data with files, propagation not stopped), the `onDrop` callback is
invoked with the accepted and rejected lists iff it is provided,
regardless of the accept/reject outcome; `onDropRejected` is invoked iff
it is provided and `rejectedFiles` is non-empty; `onDropAccepted` is
invoked iff it is provided and `acceptedFiles` is non-empty; and the
sequence of invocations is a subsequence of
`onDrop`, `onDropRejected`, `onDropAccepted`, in that order. -/
theorem onDrop_callbacks (fa : File → Option String → Bool)
    (props : DropzoneProps) (c : Controller) (evt : DomEvent)
    (hf : evt.hasFiles = true) (hp : evt.propagationStopped = false) :
    (dropCalls fa props c evt).Sublist
      [CbCall.cbOnDrop (dropAccepted fa props c evt) (dropRejected fa props c evt),
       CbCall.cbOnDropRejected (dropRejected fa props c evt),
       CbCall.cbOnDropAccepted (dropAccepted fa props c evt)] ∧
    (CbCall.cbOnDrop (dropAccepted fa props c evt) (dropRejected fa props c evt) ∈
        dropCalls fa props c evt ↔ props.hasOnDrop = true) ∧
    (CbCall.cbOnDropRejected (dropRejected fa props c evt) ∈
        dropCalls fa props c evt ↔
      props.hasOnDropRejected = true ∧ dropRejected fa props c evt ≠ []) ∧
    (CbCall.cbOnDropAccepted (dropAccepted fa props c evt) ∈
        dropCalls fa props c evt ↔
      props.hasOnDropAccepted = true ∧ dropAccepted fa props c evt ≠ []) := by
  have key : dropCalls fa props c evt =
      (if props.hasOnDrop then
        [CbCall.cbOnDrop (dropAccepted fa props c evt) (dropRejected fa props c evt)]
       else []) ++
      (if decide ((dropRejected fa props c evt).length > 0) &&
          props.hasOnDropRejected then
        [CbCall.cbOnDropRejected (dropRejected fa props c evt)]
       else []) ++
      (if decide ((dropAccepted fa props c evt).length > 0) &&
          props.hasOnDropAccepted then
        [CbCall.cbOnDropAccepted (dropAccepted fa props c evt)]
       else []) := by
    simp [dropCalls, dropAccepted, dropRejected, onDropHandler, hf, hp]
  refine ⟨?_, ?_, ?_, ?_⟩
  · rw [key]
    exact segments_sublist _ _ _ _ _ _
  · rw [key]
    simp [List.mem_append, mem_ite_singleton, List.length_pos]
  · rw [key]
    simp only [List.mem_append, mem_ite_singleton, Bool.and_eq_true,
      decide_eq_true_eq, gt_iff_lt, List.length_pos]
    simp
    tauto
  · rw [key]
    simp only [List.mem_append, mem_ite_singleton, Bool.and_eq_true,
      decide_eq_true_eq, gt_iff_lt, List.length_pos]
    simp
    tauto

/-- C9 witness: with all three callbacks provided and one accepted file,
the calls are exactly `onDrop` followed by `onDropAccepted`. -/
theorem onDrop_callbacks_witness :
    (dropCalls acceptAll samplePropsCallbacks sampleController
      (sampleEvent [fileA])).Sublist
        [CbCall.cbOnDrop [fileA] [], CbCall.cbOnDropRejected [],
         CbCall.cbOnDropAccepted [fileA]] ∧
    CbCall.cbOnDrop [fileA] [] ∈
      dropCalls acceptAll samplePropsCallbacks sampleController
        (sampleEvent [fileA]) ∧
    CbCall.cbOnDropAccepted [fileA] ∈
      dropCalls acceptAll samplePropsCallbacks sampleController
        (sampleEvent [fileA]) := by
  have h := onDrop_callbacks acceptAll samplePropsCallbacks sampleController
    (sampleEvent [fileA]) rfl rfl
  have hA : dropAccepted acceptAll samplePropsCallbacks sampleController
      (sampleEvent [fileA]) = [fileA] := by decide
  have hR : dropRejected acceptAll samplePropsCallbacks sampleController
      (sampleEvent [fileA]) = [] := by decide
  rw [hA, hR] at h
  exact ⟨h.1, h.2.1.mpr rfl, h.2.2.2.mpr ⟨rfl, by decide⟩⟩

/-- C10: when the `disabled` prop is `true`, `getRootProps` returns `null`
for every one of its nine event handlers (`onKeyDown`, `onFocus`,
`onBlur`, `onClick`, `onDragStart`, `onDragEnter`, `onDragOver`,
`onDragLeave`, `onDrop`) and a `tabIndex` of `-1` instead of `0`, and the
hook's returned `isFocused` is `false` regardless of the internal focus
state. -/
theorem getRootProps_disabled {α : Type} (props : DropzoneProps)
    (compose : α → α → α) (inst : InstanceHandlers α)
    (arg : RootPropsArg α) (fa : File → Option String → Bool)
    (s : DropzoneState) (hd : props.disabled = true) :
    (getRootProps props compose inst arg).onKeyDown = none ∧
    (getRootProps props compose inst arg).onFocus = none ∧
    (getRootProps props compose inst arg).onBlur = none ∧
    (getRootProps props compose inst arg).onClick = none ∧
    (getRootProps props compose inst arg).onDragStart = none ∧
    (getRootProps props compose inst arg).onDragEnter = none ∧
    (getRootProps props compose inst arg).onDragOver = none ∧
    (getRootProps props compose inst arg).onDragLeave = none ∧
    (getRootProps props compose inst arg).onDrop = none ∧
    (getRootProps props compose inst arg).tabIndex = -1 ∧
    (deriveSnapshot fa props s).isFocused = false := by
  simp [getRootProps, rootField, composeHandler, deriveSnapshot, hd]

/-- C10 witness: with `disabled := true`, a focused state and concrete
handlers, the returned `onClick` is `null`, `tabIndex` is `-1` and
`isFocused` is `false`. -/
theorem getRootProps_disabled_witness :
    (getRootProps samplePropsDisabled (fun a _ => a) sampleInstanceHandlers
      { }).onClick = none ∧
    (getRootProps samplePropsDisabled (fun a _ => a) sampleInstanceHandlers
      { }).tabIndex = -1 ∧
    (deriveSnapshot acceptAll samplePropsDisabled sampleFocusState).isFocused =
      false := by
  have h := getRootProps_disabled samplePropsDisabled (fun a _ => a)
    sampleInstanceHandlers { } acceptAll sampleFocusState rfl
  exact ⟨h.2.2.2.1, h.2.2.2.2.2.2.2.2.2.1, h.2.2.2.2.2.2.2.2.2.2⟩

end Dropzone
